import Mathlib

/-!
Shallow embedding of the crowd-code 2.0 observation-action capture engine
(`src/recording.ts`, `src/capture/viewportCapture.ts`,
`src/capture/filesystemWatcher.ts`, the v2 git provider) and proofs about it.

Conventions of the embedding:
* timestamps are `Int` milliseconds (the value of `Date.now()`);
* the module-level mutable variables of each TypeScript module are gathered
  into explicit state records, and each handler is a pure state transformer
  taking the ambient inputs (current time, captured observation, editor
  facts) as arguments;
* the md5 content hash of `computeObservationHash` is modelled by the data
  that is serialized into it, so hash equality is equality of that data
  (md5 is treated as injective on the serialized JSON);
* the `setTimeout`-based reset of the panic-button press counter is
  modelled by storing the time of the last press: a press arriving at
  least `PANIC_BUTTON_TIMEOUT` milliseconds later sees the counter already
  reset to zero, exactly as the fired timeout would have left it.
-/

namespace CrowdCode

/-- Cursor position, from `types.ts` (`CursorPosition`). -/
structure CursorPosition where
  line : Nat
  character : Nat
deriving DecidableEq, Repr

/-- Visible editor slice, from `types.ts` (`ViewportState`). -/
structure ViewportState where
  file : String
  startLine : Nat
  endLine : Nat
  content : String
  cursorPosition : Option CursorPosition
deriving DecidableEq, Repr

/-- Terminal viewport, from `capture/terminalCapture.ts` (`TerminalViewport`). -/
structure TerminalViewport where
  id : String
  name : String
  viewport : List String
deriving DecidableEq, Repr

/-- An observation of visible state. `viewportCapture.ts` builds observations
as `{viewport, activeTerminals}` (a list of terminal states), which is the
shape `computeObservationHash` consumes. -/
structure Observation where
  viewport : Option ViewportState
  activeTerminals : List TerminalViewport
deriving DecidableEq, Repr

/-- Actor classification. `types.ts` declares
`'user' | 'agent' | 'unknown' | 'git' | 'git_checkout'`; `recording.ts`
additionally uses the literal `'external'` as the fallback source of a
file change, so it is included here. -/
inductive ActionSource where
  | user
  | agent
  | unknown
  | git
  | git_checkout
  | external
deriving DecidableEq, Repr

/-- The change type of a filesystem notification. -/
inductive ChangeKind where
  | create
  | change
  | delete
deriving DecidableEq, Repr

/-- A raw edit delta, from `types.ts` (`EditDiff`). -/
structure EditDiff where
  rangeOffset : Nat
  rangeLength : Nat
  text : String
deriving DecidableEq, Repr

/-- The tagged union of actions, from `types.ts` plus the `scroll` action
built in `recording.ts` (`handleScrollObservation`). -/
inductive Action where
  | edit (source : ActionSource) (file : String) (diff : EditDiff)
  | selection (source : ActionSource) (file : String)
      (selectionStart selectionEnd : CursorPosition) (selectedText : String)
  | tab_switch (source : ActionSource) (file : String) (previousFile : Option String)
  | terminal_focus (source : ActionSource) (terminalId terminalName : String)
  | terminal_command (source : ActionSource) (terminalId terminalName command : String)
  | terminal_output (source : ActionSource) (terminalId terminalName output : String)
  | file_change (source : ActionSource) (file : String)
      (changeType : ChangeKind) (diff : Option String)
  | scroll (source : ActionSource) (file : String)
deriving DecidableEq, Repr

/-- A log entry, from `types.ts` (`RecordingEvent`): an observation event,
an action event, or a workspace snapshot reference. -/
inductive RecordingEvent where
  | observation (sequence : Nat) (timestamp : Int) (obs : Observation)
  | action (sequence : Nat) (timestamp : Int) (act : Action)
  | workspace_snapshot (sequence : Nat) (timestamp : Int) (snapshotId : String)
deriving DecidableEq, Repr

/-- The `sequence` field of an event. -/
def RecordingEvent.sequence : RecordingEvent → Nat
  | .observation s _ _ => s
  | .action s _ _ => s
  | .workspace_snapshot s _ _ => s

/-- The `timestamp` field of an event. -/
def RecordingEvent.timestamp : RecordingEvent → Int
  | .observation _ t _ => t
  | .action _ t _ => t
  | .workspace_snapshot _ t _ => t

/-- The data `computeObservationHash` feeds to md5: the JSON of
`{viewport, terminalIds}`. Hash equality is modelled as equality of this
data. -/
abbrev ObservationKey := Option ViewportState × List String

/-- From `viewportCapture.ts`: hash of the viewport and the active terminal
ids (the terminal viewport text is not part of the hashed data). -/
def computeObservationHash (o : Observation) : ObservationKey :=
  (o.viewport, o.activeTerminals.map TerminalViewport.id)

/-- Module state of `viewportCapture.ts`: `lastObservationHash` and the
`viewportChanged` dirty flag. -/
structure CaptureState where
  lastObservationHash : Option ObservationKey
  viewportChanged : Bool
deriving DecidableEq, Repr

/-- From `viewportCapture.ts` (`captureNow`): capture an observation for a
user action, returning `none` when it hashes identically to the last
captured one. -/
def captureNow (o : Observation) (cs : CaptureState) :
    Option Observation × CaptureState :=
  let h := computeObservationHash o
  if cs.lastObservationHash = some h then (none, cs)
  else (some o, { cs with lastObservationHash := some h })

/-- From `viewportCapture.ts` (`pollViewport`): on a poll tick, emit the
current observation when the dirty flag is set and the hash differs from
the last capture. Returns the emitted observation, if any. -/
def pollViewport (o : Observation) (cs : CaptureState) :
    Option Observation × CaptureState :=
  if cs.viewportChanged = false then (none, cs)
  else
    let cs := { cs with viewportChanged := false }
    let h := computeObservationHash o
    if cs.lastObservationHash = some h then (none, cs)
    else (some o, { cs with lastObservationHash := some h })

/-- Module state of the v2 git provider: the one-shot HEAD-change flag and
the time of the most recent git signal. -/
structure GitState where
  sawHeadChange : Bool
  lastGitOperationTime : Int
deriving DecidableEq, Repr

/-- `GIT_OPERATION_WINDOW_MS` from the v2 git provider. -/
def GIT_OPERATION_WINDOW_MS : Int := 500

/-- From the v2 git provider (`getRecentGitOperation`): outside the window
return `none`; inside it return `git_checkout` when the HEAD flag is set,
else `git`, clearing the flag. -/
def getRecentGitOperation (now : Int) (g : GitState) :
    Option ActionSource × GitState :=
  if now - g.lastGitOperationTime > GIT_OPERATION_WINDOW_MS then (none, g)
  else
    ((if g.sawHeadChange then some ActionSource.git_checkout else some ActionSource.git),
      { g with sawHeadChange := false })

/-- The `recording` object of v2 `recording.ts` (`RecordingState` in
`types.ts`). -/
structure RecordingState where
  isRecording : Bool
  startDateTime : Option Int
  endDateTime : Option Int
  sequence : Nat
  sessionId : String
  events : List RecordingEvent
deriving DecidableEq, Repr

/-- The module-level mutable state of v2 `recording.ts`, together with the
capture and git module states it interacts with: the recording object, the
panic-button press counter and the time of the last press (which stands in
for the pending 3-second reset timeout), and the user-interaction tracking
used to attribute filesystem changes. -/
structure EngineState where
  recording : RecordingState
  capture : CaptureState
  git : GitState
  panicButtonPressCount : Nat
  lastPanicPressTime : Option Int
  lastUserInteractionTime : Int
  lastUserEditedFile : Option String
deriving DecidableEq, Repr

/-- From v2 `recording.ts` (`logObservation`): when recording, increment the
sequence counter and append an observation event stamped with it. -/
def logObservation (now : Int) (o : Observation) (s : EngineState) : EngineState :=
  if s.recording.isRecording = false then s
  else
    { s with recording := { s.recording with
        sequence := s.recording.sequence + 1,
        events := s.recording.events ++ [.observation (s.recording.sequence + 1) now o] } }

/-- From v2 `recording.ts` (`logAction`): when recording, increment the
sequence counter and append an action event stamped with it. -/
def logAction (now : Int) (a : Action) (s : EngineState) : EngineState :=
  if s.recording.isRecording = false then s
  else
    { s with recording := { s.recording with
        sequence := s.recording.sequence + 1,
        events := s.recording.events ++ [.action (s.recording.sequence + 1) now a] } }

/-- From v2 `recording.ts` (`logObservationAndAction`): capture an
observation with `captureNow`, log it when the capture was not suppressed,
then log the action. The freshly captured observation `o` is an input from
the ambient editor state. -/
def logObservationAndAction (now : Int) (o : Observation) (a : Action)
    (s : EngineState) : EngineState :=
  let r := captureNow o s.capture
  let s1 := { s with capture := r.2 }
  match r.1 with
  | some ob => logAction now a (logObservation now ob s1)
  | none => logAction now a s1

/-- Ambient editor facts consulted by the handlers: whether the current file
lies inside the export path (`isCurrentFileExported`) and whether the
changed document is the active editor's document. -/
structure EditorEnv where
  fileExported : Bool
  activeEditorMatches : Bool
deriving DecidableEq, Repr

/-- `USER_INTERACTION_WINDOW_MS` from v2 `recording.ts`. -/
def USER_INTERACTION_WINDOW_MS : Int := 2000

/-- From v2 `recording.ts` (`handleTextDocumentChange`): for a user edit of
`file` with content changes `changes`, remember the interaction time and
edited file, then log an observation-action pair per content change. -/
def handleTextDocumentChange (now : Int) (env : EditorEnv) (file : String)
    (changes : List EditDiff) (o : Observation) (s : EngineState) : EngineState :=
  if s.recording.isRecording = false then s
  else if env.fileExported = true then s
  else if env.activeEditorMatches = false then s
  else
    let s1 := { s with lastUserInteractionTime := now,
                       lastUserEditedFile := some file }
    changes.foldl
      (fun st ch => logObservationAndAction now o (.edit .user file ch) st) s1

/-- From v2 `recording.ts` (`handleTerminalCommand`): remember the
interaction time, clear the edited-file marker (terminal commands can
affect any file), and log the command as an observation-action pair. -/
def handleTerminalCommand (now : Int) (env : EditorEnv)
    (terminalId terminalName command : String) (o : Observation)
    (s : EngineState) : EngineState :=
  if s.recording.isRecording = false then s
  else if env.fileExported = true then s
  else
    let s1 := { s with lastUserInteractionTime := now,
                       lastUserEditedFile := none }
    logObservationAndAction now o
      (.terminal_command .user terminalId terminalName command) s1

/-- From v2 `recording.ts` (`handleFileChange`): drop the notification when
it falls inside the user-interaction window and the edited-file marker is
cleared or names the same file; otherwise classify by the git detector
(falling back to `external`) and log the watcher-supplied diff as a
file-change observation-action pair. -/
def handleFileChange (now : Int) (file : String) (changeType : ChangeKind)
    (diff : Option String) (o : Observation) (s : EngineState) : EngineState :=
  if s.recording.isRecording = false then s
  else
    if (now - s.lastUserInteractionTime < USER_INTERACTION_WINDOW_MS) ∧
        (s.lastUserEditedFile = none ∨ s.lastUserEditedFile = some file) then s
    else
      let r := getRecentGitOperation now s.git
      let source := r.1.getD ActionSource.external
      logObservationAndAction now o (.file_change source file changeType diff)
        { s with git := r.2 }

/-- `PANIC_BUTTON_TIMEOUT` from v2 `recording.ts`. -/
def PANIC_BUTTON_TIMEOUT : Int := 3000

/-- The press count `panicButton` observes at time `now`: zero when there
was no earlier press or the 3-second reset timeout has fired since the
last press, the stored counter otherwise. -/
def panicEffectiveCount (now : Int) (s : EngineState) : Nat :=
  match s.lastPanicPressTime with
  | none => 0
  | some t => if now - t ≥ PANIC_BUTTON_TIMEOUT then 0 else s.panicButtonPressCount

/-- From v2 `recording.ts` (`panicButton`): when a recording is live, remove
every event with timestamp at or after `now - (count+1)*10` seconds from
the in-memory log, rewind the sequence counter to the last remaining
event's sequence (or 0), and bump the press counter. -/
def panicButton (now : Int) (s : EngineState) : EngineState :=
  if s.recording.isRecording = false then s
  else if s.recording.startDateTime = none then s
  else
    let count := panicEffectiveCount now s
    let secondsToRemove := (count + 1) * 10
    let cutoffTime : Int := now - (secondsToRemove * 1000 : Nat)
    let events := s.recording.events.filter (fun e => e.timestamp < cutoffTime)
    let sequence := match events.getLast? with
      | some e => e.sequence
      | none => 0
    { s with
      recording := { s.recording with events := events, sequence := sequence },
      panicButtonPressCount := count + 1,
      lastPanicPressTime := some now }

/-- The JSON payload `saveRecording` serializes: the `RecordingSession`
shape of `types.ts` (`{version, sessionId, startTime, events}` — note there
is no `chunkIndex` field; the `RecordingChunk` shape declared in `types.ts`
is never constructed by the code). -/
structure RecordingSessionPayload where
  version : String
  sessionId : String
  startTime : Int
  events : List RecordingEvent
deriving DecidableEq, Repr

/-- From v2 `recording.ts` (`saveRecording`): when an export path and start
time exist, write the whole session as one JSON payload. The recording
state is returned unchanged: the code neither clears `recording.events`
nor tracks a chunk index. `exportOk` abstracts the export-path and
base-file-path guards. -/
def saveRecording (exportOk : Bool) (s : EngineState) :
    Option RecordingSessionPayload × EngineState :=
  if exportOk = false then (none, s)
  else
    match s.recording.startDateTime with
    | none => (none, s)
    | some t => (some ⟨"2.0", s.recording.sessionId, t, s.recording.events⟩, s)

/-- The per-notification filesystem facts `filesystemWatcher.ts` consults:
whether the path is excluded by the ignore filter, whether a workspace
root is set, whether `findFiles` confirms workspace membership, the stat
size (`none` when stat fails), and the read content (`none` when the read
fails). -/
structure FsEnv where
  excluded : Bool
  workspaceSet : Bool
  findFilesNonempty : Bool
  statSize : Option Nat
  readContent : Option String
deriving DecidableEq, Repr

/-- The path-to-content cache of `filesystemWatcher.ts`, as an association
list. (The LRU capacity of 5000 entries only matters once the cache is
that large; none of the verified properties concern eviction.) -/
abbrev FsCache := List (String × String)

/-- Cache lookup (`fileCache.get`). -/
def cacheLookup (c : FsCache) (p : String) : Option String :=
  (c.find? (fun kv => kv.1 = p)).map (fun kv => kv.2)

/-- Cache removal (`fileCache.delete`). -/
def cacheErase (c : FsCache) (p : String) : FsCache :=
  c.filter (fun kv => kv.1 ≠ p)

/-- Cache update (`fileCache.set`). -/
def cacheInsert (c : FsCache) (p : String) (v : String) : FsCache :=
  cacheErase c p ++ [(p, v)]

/-- The report the watcher hands its callback: `(path, kind, old, new)`. -/
structure FsEvent where
  path : String
  changeType : ChangeKind
  oldContent : Option String
  newContent : Option String
deriving DecidableEq, Repr

/-- `MAX_FILE_SIZE_BYTES` from `filesystemWatcher.ts`. -/
def MAX_FILE_SIZE_BYTES : Nat := 100 * 1024

/-- From `filesystemWatcher.ts` (`shouldTrackFile`): cached paths are
tracked; otherwise the path must be non-excluded, a workspace must be set,
and `findFiles` must confirm membership. -/
def shouldTrackFile (c : FsCache) (p : String) (env : FsEnv) : Bool :=
  if cacheLookup c p ≠ none then true
  else if env.excluded = true then false
  else if env.workspaceSet = false then false
  else env.findFilesNonempty

/-- From `filesystemWatcher.ts` (`isFileSizeWithinLimit`): true when stat
succeeds and the size is at most the ceiling. -/
def isFileSizeWithinLimit (env : FsEnv) : Bool :=
  match env.statSize with
  | none => false
  | some sz => sz ≤ MAX_FILE_SIZE_BYTES

/-- From `filesystemWatcher.ts` (`processFileChange`): returns the updated
cache and the report, if one is emitted. -/
def processFileChange (c : FsCache) (p : String) (changeType : ChangeKind)
    (env : FsEnv) : FsCache × Option FsEvent :=
  if cacheLookup c p = none ∧ changeType ≠ ChangeKind.delete ∧
      shouldTrackFile c p env = false then (c, none)
  else if changeType = ChangeKind.delete then
    (cacheErase c p, some ⟨p, changeType, cacheLookup c p, none⟩)
  else if isFileSizeWithinLimit env = false then
    (if cacheLookup c p ≠ none then cacheErase c p else c, none)
  else
    match env.readContent with
    | none => (c, none)
    | some newContent =>
      if cacheLookup c p = some newContent ∧ changeType ≠ ChangeKind.create then
        (c, none)
      else
        (cacheInsert c p newContent,
          some ⟨p, changeType, cacheLookup c p, some newContent⟩)

/-- Modelled from the spec: replaying one buffered pending edit replaces
the slice from `rangeOffset` to `rangeOffset + rangeLength` of the content
with the edit's text. The v2 engine under `src/` keeps no pending-edit
buffer and never performs this replay; this definition follows the spec's
words so the missing behaviour can be stated. -/
def replayPendingEdit (content : String) (e : EditDiff) : String :=
  String.mk (content.data.take e.rangeOffset ++ e.text.data ++
    content.data.drop (e.rangeOffset + e.rangeLength))

/-- Modelled from the spec: replaying the buffered edits in order gives the
user-only baseline. -/
def replayPendingEdits (content : String) (es : List EditDiff) : String :=
  es.foldl replayPendingEdit content

/-- One logging step of a live session: the claims about sequence numbers
quantify over every sequence of `logObservation`, `logAction` and
`panicButton` calls, each tagged with its `Date.now()` value. -/
inductive EngineOp where
  | obs (o : Observation)
  | act (a : Action)
  | panic
deriving Repr

/-- Apply one timed operation to the engine state. -/
def engineStep (s : EngineState) (p : Int × EngineOp) : EngineState :=
  match p.2 with
  | .obs o => logObservation p.1 o s
  | .act a => logAction p.1 a s
  | .panic => panicButton p.1 s

/-- Run a timed trace of operations from a state. -/
def runEngine (s : EngineState) (tr : List (Int × EngineOp)) : EngineState :=
  tr.foldl engineStep s

/-- The timestamps of a trace are non-decreasing and start no earlier than
`t` (`Date.now()` is monotone across the engine's serialized callbacks). -/
def TimesMono : Int → List (Int × EngineOp) → Prop
  | _, [] => True
  | t, p :: rest => t ≤ p.1 ∧ TimesMono p.1 rest

/-- The session state `startRecording` establishes at time `t0`: empty
event list, sequence 0, recording live, capture and panic state reset.
The git signal state is whatever the watchers last saw. -/
def startState (t0 : Int) (sid : String) (g : GitState) : EngineState where
  recording := { isRecording := true, startDateTime := some t0,
                 endDateTime := none, sequence := 0, sessionId := sid,
                 events := [] }
  capture := { lastObservationHash := none, viewportChanged := false }
  git := g
  panicButtonPressCount := 0
  lastPanicPressTime := none
  lastUserInteractionTime := 0
  lastUserEditedFile := none

/-- The event log carries exactly the sequence numbers `1, …, n` in order. -/
def EventsContiguous (s : EngineState) : Prop :=
  s.recording.events.map RecordingEvent.sequence =
    List.range' 1 s.recording.events.length

/-- Event timestamps are non-decreasing along the log and bounded by `t`. -/
def TimestampsLe (t : Int) (s : EngineState) : Prop :=
  s.recording.events.Pairwise (fun a b => a.timestamp ≤ b.timestamp) ∧
    ∀ e ∈ s.recording.events, e.timestamp ≤ t

/-- The inductive invariant for claim C1: contiguous sequence numbers, the
counter in sync with the log length, and time-ordered events no later
than `t`. -/
def EngineInv (t : Int) (s : EngineState) : Prop :=
  EventsContiguous s ∧ s.recording.sequence = s.recording.events.length ∧
    TimestampsLe t s

/-- A freshly started session at time 0, with the last git signal far in
the past; used as the concrete state of witnesses and counterexamples. -/
def sampleStart : EngineState := startState 0 "session" ⟨false, -100000⟩

/-- A sample logged event used by concrete counterexamples. -/
def sampleEvt : RecordingEvent := .action 1 0 (.terminal_focus .user "t1" "bash")

/-- `sampleStart` with one logged event, sequence counter 1. -/
def sampleEvtState : EngineState :=
  { sampleStart with recording :=
      { sampleStart.recording with sequence := 1, events := [sampleEvt] } }

theorem logObservationAndAction_preserves (now : Int) (o : Observation)
    (a : Action) (s : EngineState) :
    (logObservationAndAction now o a s).recording.isRecording =
        s.recording.isRecording ∧
    (logObservationAndAction now o a s).lastUserInteractionTime =
        s.lastUserInteractionTime ∧
    (logObservationAndAction now o a s).lastUserEditedFile =
        s.lastUserEditedFile := by
  unfold logObservationAndAction captureNow logObservation logAction
  by_cases h : s.capture.lastObservationHash = some (computeObservationHash o) <;>
    simp [h] <;> split <;> simp_all

theorem foldl_logOAA_preserves (now : Int) (o : Observation) (file : String) :
    ∀ (changes : List EditDiff) (s : EngineState),
      ((changes.foldl
          (fun st ch => logObservationAndAction now o (.edit .user file ch) st)
          s).recording.isRecording = s.recording.isRecording ∧
       (changes.foldl
          (fun st ch => logObservationAndAction now o (.edit .user file ch) st)
          s).lastUserInteractionTime = s.lastUserInteractionTime ∧
       (changes.foldl
          (fun st ch => logObservationAndAction now o (.edit .user file ch) st)
          s).lastUserEditedFile = s.lastUserEditedFile) := by
  intro changes
  induction changes with
  | nil => intro s; exact ⟨rfl, rfl, rfl⟩
  | cons ch tl ih =>
    intro s
    have h1 := logObservationAndAction_preserves now o (.edit .user file ch) s
    have h2 := ih (logObservationAndAction now o (.edit .user file ch) s)
    simp only [List.foldl_cons]
    exact ⟨h2.1.trans h1.1, h2.2.1.trans h1.2.1, h2.2.2.trans h1.2.2⟩

/-- C8: `getRecentGitOperation` returns a non-null classification exactly
when called within 500 ms of the most recent git signal; within that
window it returns `git_checkout` exactly when the HEAD-changed flag is
set, consuming it clears the flag, and a second call on the resulting
state never returns `git_checkout` again. -/
theorem C8_git_window_one_shot (g : GitState) (now : Int) :
    ((getRecentGitOperation now g).1 ≠ none ↔
        now - g.lastGitOperationTime ≤ GIT_OPERATION_WINDOW_MS) ∧
    (now - g.lastGitOperationTime ≤ GIT_OPERATION_WINDOW_MS →
      (((getRecentGitOperation now g).1 = some ActionSource.git_checkout) ↔
          g.sawHeadChange = true) ∧
      (getRecentGitOperation now g).2.sawHeadChange = false ∧
      ∀ now2 : Int,
        (getRecentGitOperation now2 (getRecentGitOperation now g).2).1 ≠
          some ActionSource.git_checkout) := by
  unfold getRecentGitOperation GIT_OPERATION_WINDOW_MS
  by_cases h : now - g.lastGitOperationTime > 500
  · simp only [if_pos h]
    exact ⟨by simp; omega, fun h2 => absurd h2 (by omega)⟩
  · simp only [if_neg h]
    constructor
    · cases hh : g.sawHeadChange <;> simp [hh] <;> omega
    · intro _
      refine ⟨?_, trivial, fun now2 => ?_⟩
      · cases hh : g.sawHeadChange <;> simp [hh]
      · by_cases h2 : now2 - g.lastGitOperationTime > 500 <;> simp [h2]

/-- C8 witness: inside the window with the HEAD flag set, the call returns
a non-null classification. -/
theorem C8_witness :
    (getRecentGitOperation 600 ⟨true, 200⟩).1 ≠ none :=
  (C8_git_window_one_shot ⟨true, 200⟩ 600).1.mpr (by decide)

/-- C10: the deduplication hash depends only on the viewport and the active
terminal ids: two observations agreeing on those but differing in terminal
viewport text hash identically, so `captureNow` suppresses the second when
the first was the immediately preceding capture. -/
theorem C10_hash_ignores_terminal_text (o1 o2 : Observation) (cs : CaptureState)
    (hv : o1.viewport = o2.viewport)
    (hid : o1.activeTerminals.map TerminalViewport.id =
        o2.activeTerminals.map TerminalViewport.id)
    (hdiff : o1.activeTerminals ≠ o2.activeTerminals) :
    computeObservationHash o1 = computeObservationHash o2 ∧
    (cs.lastObservationHash = some (computeObservationHash o1) →
      (captureNow o2 cs).1 = none) := by
  have hh : computeObservationHash o1 = computeObservationHash o2 := by
    unfold computeObservationHash
    rw [hv, hid]
  refine ⟨hh, fun hlast => ?_⟩
  unfold captureNow
  rw [← hh]
  simp [hlast]

/-- C10 witness: two observations sharing the terminal id but with
different terminal text; the second capture is suppressed. -/
theorem C10_witness :
    (captureNow ⟨none, [⟨"t1", "bash", ["line b"]⟩]⟩
      ⟨some (computeObservationHash ⟨none, [⟨"t1", "bash", ["line a"]⟩]⟩),
        false⟩).1 = none :=
  (C10_hash_ignores_terminal_text
      ⟨none, [⟨"t1", "bash", ["line a"]⟩]⟩
      ⟨none, [⟨"t1", "bash", ["line b"]⟩]⟩
      ⟨some (computeObservationHash ⟨none, [⟨"t1", "bash", ["line a"]⟩]⟩), false⟩
      rfl rfl (by decide)).2 rfl

/-- C4 counterexample: on a pure user edit of a fresh session the engine
appends the Observation event first (sequence 1) and the Action event
after it (sequence 2), so the Observation does not follow the Action and
its sequence number is the Action's minus one, not plus one, refuting the
claimed order. -/
theorem C4_counterexample :
    (handleTextDocumentChange 5 ⟨false, true⟩ "a.txt" [⟨0, 0, "hi"⟩]
        ⟨none, []⟩ sampleStart).recording.events =
      [.observation 1 5 ⟨none, []⟩,
       .action 2 5 (.edit .user "a.txt" ⟨0, 0, "hi"⟩)] := by
  decide

/-- C4 (amended): for a user action handled while recording whose fresh
capture is not suppressed, the engine appends the Observation first and
the Action immediately after it, so the Action's sequence number is the
Observation's plus one. -/
theorem C4_observation_then_action (s : EngineState) (now : Int)
    (o : Observation) (a : Action)
    (hrec : s.recording.isRecording = true)
    (hlast : s.capture.lastObservationHash ≠ some (computeObservationHash o)) :
    (logObservationAndAction now o a s).recording.events =
      s.recording.events ++
        [.observation (s.recording.sequence + 1) now o,
         .action (s.recording.sequence + 2) now a] := by
  unfold logObservationAndAction captureNow
  simp only [if_neg hlast]
  unfold logObservation logAction
  simp [hrec]

/-- C4 witness: a concrete unsuppressed capture produces the
observation-action pair at sequences 1 and 2. -/
theorem C4_witness :
    (logObservationAndAction 5 ⟨none, []⟩ (.scroll .user "a.txt")
        sampleStart).recording.events =
      [.observation 1 5 ⟨none, []⟩,
       .action 2 5 (.scroll .user "a.txt")] := by
  have h := C4_observation_then_action sampleStart 5 ⟨none, []⟩
    (.scroll .user "a.txt") rfl (by decide)
  simpa using h

/-- C5 counterexample: a post-action capture identical to the immediately
preceding one is suppressed as well — only the Action event is appended —
refuting the claimed exemption of post-action observations. -/
theorem C5_counterexample :
    (logObservationAndAction 7 ⟨none, []⟩ (.terminal_focus .user "t1" "bash")
        { sampleStart with capture :=
            { lastObservationHash := some (computeObservationHash ⟨none, []⟩),
              viewportChanged := false } }).recording.events =
      [.action 1 7 (.terminal_focus .user "t1" "bash")] := by
  decide

/-- C5 (amended): captures identical to the immediately preceding one are
suppressed everywhere the hash state is consulted: the poll path emits
nothing, and a post-action capture logs no Observation — the Action alone
is appended. -/
theorem C5_duplicate_suppression (s : EngineState) (o : Observation)
    (now : Int) (a : Action)
    (hrec : s.recording.isRecording = true)
    (hlast : s.capture.lastObservationHash = some (computeObservationHash o)) :
    (pollViewport o s.capture).1 = none ∧
    (logObservationAndAction now o a s).recording.events =
      s.recording.events ++ [.action (s.recording.sequence + 1) now a] := by
  constructor
  · unfold pollViewport
    by_cases hc : s.capture.viewportChanged = false <;> simp [hc, hlast]
  · unfold logObservationAndAction captureNow
    simp only [if_pos hlast]
    unfold logAction
    simp [hrec]

/-- C5 witness: concrete duplicate capture, suppressed on both paths. -/
theorem C5_witness :
    (pollViewport ⟨none, []⟩
      ⟨some (computeObservationHash ⟨none, []⟩), true⟩).1 = none :=
  (C5_duplicate_suppression
      { sampleStart with capture :=
          ⟨some (computeObservationHash ⟨none, []⟩), true⟩ }
      ⟨none, []⟩ 7 (.scroll .user "a.txt") rfl rfl).1

/-- C6 counterexample: a successful save returns the whole-session payload
(version, sessionId, startTime, events — no chunk index field exists in
what `saveRecording` serializes) and leaves the engine state, including
the non-empty in-memory event log, completely unchanged, refuting the
claimed clearing and chunk-index increment. -/
theorem C6_counterexample :
    saveRecording true sampleEvtState =
      (some ⟨"2.0", "session", 0, [sampleEvt]⟩, sampleEvtState) ∧
    sampleEvtState.recording.events ≠ [] := by
  constructor
  · decide
  · decide

/-- C6 (amended): whenever the export-path guards pass and a start time is
set, `saveRecording` emits the single uncompressed session payload
`{version := "2.0", sessionId, startTime, events}` holding the full event
log, and returns the state unchanged: no chunk index is maintained and the
in-memory log is not cleared. -/
theorem C6_save_whole_session (s : EngineState) (t : Int)
    (hstart : s.recording.startDateTime = some t) :
    saveRecording true s =
      (some ⟨"2.0", s.recording.sessionId, t, s.recording.events⟩, s) := by
  unfold saveRecording
  simp [hstart]

/-- C6 witness: concrete save of a one-event session. -/
theorem C6_witness :
    saveRecording true sampleEvtState =
      (some ⟨"2.0", sampleEvtState.recording.sessionId, 0,
        sampleEvtState.recording.events⟩, sampleEvtState) :=
  C6_save_whole_session sampleEvtState 0 rfl

/-- C7 counterexample: a cached, readable, changed file whose stat size
exceeds the 100 KB ceiling emits no report and is evicted from the cache,
while the claim's final clause would require the change to be reported
with the cache updated to the new content. -/
theorem C7_counterexample :
    processFileChange [("f.txt", "a")] "f.txt" ChangeKind.change
        ⟨false, true, true, some 200000, some "b"⟩ = ([], none) ∧
    (⟨false, true, true, some 200000, some "b"⟩ : FsEnv).readContent = some "b" ∧
    cacheLookup [("f.txt", "a")] "f.txt" = some "a" := by
  refine ⟨by decide, rfl, by decide⟩

/-- C7 (amended): for a create or change notification, `processFileChange`
admits a path the cache does not know only when `shouldTrackFile` confirms
it (workspace membership for non-excluded paths); when the stat fails or
the size exceeds the 100 KB ceiling it emits nothing and evicts any cached
entry; when the content is unreadable it emits nothing and leaves the
cache unchanged; when the content equals the cache and the notification is
not a create it emits nothing; otherwise it updates the cache and reports
`(path, kind, old, new)` exactly once. -/
theorem C7_create_change_processing (c : FsCache) (p : String)
    (ct : ChangeKind) (env : FsEnv) (hct : ct ≠ ChangeKind.delete) :
    (shouldTrackFile c p env = false → processFileChange c p ct env = (c, none)) ∧
    (shouldTrackFile c p env = true →
      (isFileSizeWithinLimit env = false →
        processFileChange c p ct env =
          ((if cacheLookup c p ≠ none then cacheErase c p else c), none)) ∧
      (isFileSizeWithinLimit env = true →
        (env.readContent = none → processFileChange c p ct env = (c, none)) ∧
        (∀ n, env.readContent = some n →
          ((cacheLookup c p = some n ∧ ct ≠ ChangeKind.create) →
            processFileChange c p ct env = (c, none)) ∧
          (¬(cacheLookup c p = some n ∧ ct ≠ ChangeKind.create) →
            processFileChange c p ct env =
              (cacheInsert c p n, some ⟨p, ct, cacheLookup c p, some n⟩))))) := by
  constructor
  · intro hst
    have hlook : cacheLookup c p = none := by
      by_contra hl
      unfold shouldTrackFile at hst
      simp [hl] at hst
    unfold processFileChange
    simp [hlook, hct, hst]
  · intro hst
    have hguard : ¬(cacheLookup c p = none ∧ ct ≠ ChangeKind.delete ∧
        shouldTrackFile c p env = false) := by
      intro hcon
      rw [hst] at hcon
      exact absurd hcon.2.2 (by simp)
    refine ⟨fun hsz => ?_, fun hsz => ⟨fun hread => ?_, fun n hread => ⟨fun hsame => ?_, fun hdiff2 => ?_⟩⟩⟩
    · unfold processFileChange
      simp only [if_neg hguard, if_neg hct, hsz]
      simp
    · unfold processFileChange
      simp only [if_neg hguard, if_neg hct, hsz]
      simp [hread]
    · unfold processFileChange
      simp only [if_neg hguard, if_neg hct, hsz]
      simp [hread, hsame]
    · unfold processFileChange
      simp only [if_neg hguard, if_neg hct, hsz]
      simp [hread, hdiff2]

/-- C7 witness: a readable small changed file is reported with old and new
content and the cache updated. -/
theorem C7_witness :
    processFileChange [("f.txt", "a")] "f.txt" ChangeKind.change
        ⟨false, true, true, some 5, some "b"⟩ =
      (cacheInsert [("f.txt", "a")] "f.txt" "b",
        some ⟨"f.txt", ChangeKind.change, some "a", some "b"⟩) := by
  have h := (C7_create_change_processing [("f.txt", "a")] "f.txt"
    ChangeKind.change ⟨false, true, true, some 5, some "b"⟩ (by decide)).2
    (by decide)
  have h2 := (h.2 (by decide)).2 "b" rfl
  have h3 := h2.2 (by decide)
  simpa using h3

/-- C3: a panic press during a live recording removes exactly the events
with timestamp at or after `now - window`, where `window` is
`(count + 1) * 10` seconds for the effective press count: 0 on a fresh
press or after 3 seconds of inactivity, the stored count when pressed
within 3 seconds of the previous press; and each press stores count + 1
and the press time, so successive presses within 3 seconds grow the
window by 10 seconds each. -/
theorem C3_panic_removes_window (s : EngineState) (now : Int)
    (hrec : s.recording.isRecording = true)
    (hstart : s.recording.startDateTime ≠ none) :
    (∀ e ∈ s.recording.events,
      e ∈ (panicButton now s).recording.events ↔
        e.timestamp < now - ((panicEffectiveCount now s : Int) + 1) * 10000) ∧
    (s.lastPanicPressTime = none → panicEffectiveCount now s = 0) ∧
    (∀ tp, s.lastPanicPressTime = some tp → now - tp ≥ PANIC_BUTTON_TIMEOUT →
      panicEffectiveCount now s = 0) ∧
    (∀ tp, s.lastPanicPressTime = some tp → now - tp < PANIC_BUTTON_TIMEOUT →
      panicEffectiveCount now s = s.panicButtonPressCount) ∧
    (panicButton now s).panicButtonPressCount = panicEffectiveCount now s + 1 ∧
    (panicButton now s).lastPanicPressTime = some now := by
  have hmul : ((panicEffectiveCount now s + 1) * 10 * 1000 : ℕ) =
      (panicEffectiveCount now s + 1) * 10000 := by ring
  have hpb : panicButton now s =
      { s with
        recording := { s.recording with
          events := s.recording.events.filter
            (fun e => e.timestamp <
              now - ((panicEffectiveCount now s + 1) * 10 * 1000 : ℕ)),
          sequence :=
            match (s.recording.events.filter
              (fun e => e.timestamp <
                now - ((panicEffectiveCount now s + 1) * 10 * 1000 : ℕ))).getLast? with
            | some e => e.sequence
            | none => 0 },
        panicButtonPressCount := panicEffectiveCount now s + 1,
        lastPanicPressTime := some now } := by
    unfold panicButton
    simp [hrec, hstart]
  refine ⟨fun e he => ?_, ?_, ?_, ?_, ?_, ?_⟩
  · rw [hpb]
    simp only [List.mem_filter, he, true_and, decide_eq_true_eq]
    rw [hmul]
    push_cast
    constructor <;> intro <;> omega
  · intro h
    unfold panicEffectiveCount
    simp [h]
  · intro tp h1 h2
    unfold panicEffectiveCount
    simp [h1, h2]
  · intro tp h1 h2
    unfold panicEffectiveCount PANIC_BUTTON_TIMEOUT at *
    simp [h1]
    omega
  · rw [hpb]
  · rw [hpb]

/-- C3 witness: a fresh press sees effective count 0, hence a 10-second
window. -/
theorem C3_witness : panicEffectiveCount 100000 sampleStart = 0 :=
  (C3_panic_removes_window sampleStart 100000 rfl (by decide)).2.1 rfl

/-- C2: the failing input evaluated. The user's buffered edit (insert "X"
at offset 0 of "ab") fully explains the new content "Xab" by the spec's
replay rule, and no git operation is recent, yet when the filesystem
notification arrives 3 seconds later (outside the 2-second interaction
window) the engine logs a FileChange carrying the watcher-supplied
old-to-new diff with source `external`: it neither drops the
user-explained change nor attributes any residue to `agent`, because no
baseline reconstruction exists in the code. -/
theorem C2_no_agent_attribution :
    replayPendingEdits "ab" [⟨0, 0, "X"⟩] = "Xab" ∧
    (handleFileChange 3000 "c.txt" ChangeKind.change (some "udiff")
        ⟨none, [⟨"t1", "bash", []⟩]⟩
        (handleTextDocumentChange 0 ⟨false, true⟩ "c.txt" [⟨0, 0, "X"⟩]
          ⟨none, []⟩ sampleStart)).recording.events.getLast? =
      some (.action 4 3000
        (.file_change .external "c.txt" ChangeKind.change (some "udiff"))) := by
  exact ⟨by decide, by decide⟩

/-- C9: while recording, a filesystem notification is dropped without
logging any event when it arrives within 2000 ms of the last user edit
and concerns that edited file, and likewise when it arrives within
2000 ms of a user terminal command (which clears the edited-file marker,
so notifications for every file are dropped). -/
theorem C9_user_window_drops_changes (s : EngineState) (env : EditorEnv)
    (o o2 : Observation) (tU tFs : Int) (f : String) (changes : List EditDiff)
    (tid tname cmd gfile : String) (ct : ChangeKind) (d : Option String)
    (hrec : s.recording.isRecording = true)
    (hexp : env.fileExported = false)
    (hact : env.activeEditorMatches = true)
    (hwin : tFs - tU < USER_INTERACTION_WINDOW_MS) :
    handleFileChange tFs f ct d o2
        (handleTextDocumentChange tU env f changes o s) =
      handleTextDocumentChange tU env f changes o s ∧
    handleFileChange tFs gfile ct d o2
        (handleTerminalCommand tU env tid tname cmd o s) =
      handleTerminalCommand tU env tid tname cmd o s := by
  constructor
  · have hdef : handleTextDocumentChange tU env f changes o s =
        changes.foldl
          (fun st ch => logObservationAndAction tU o (.edit .user f ch) st)
          { s with lastUserInteractionTime := tU,
                   lastUserEditedFile := some f } := by
      unfold handleTextDocumentChange
      simp [hrec, hexp, hact]
    have hf := foldl_logOAA_preserves tU o f changes
      { s with lastUserInteractionTime := tU, lastUserEditedFile := some f }
    rw [hdef]
    have h1 : (changes.foldl
        (fun st ch => logObservationAndAction tU o (.edit .user f ch) st)
        { s with lastUserInteractionTime := tU,
                 lastUserEditedFile := some f }).recording.isRecording = true := by
      rw [hf.1]; exact hrec
    have h2 : (changes.foldl
        (fun st ch => logObservationAndAction tU o (.edit .user f ch) st)
        { s with lastUserInteractionTime := tU,
                 lastUserEditedFile := some f }).lastUserInteractionTime = tU := by
      rw [hf.2.1]
    have h3 : (changes.foldl
        (fun st ch => logObservationAndAction tU o (.edit .user f ch) st)
        { s with lastUserInteractionTime := tU,
                 lastUserEditedFile := some f }).lastUserEditedFile = some f := by
      rw [hf.2.2]
    unfold handleFileChange
    rw [h1, h2, h3]
    simp [hwin]
  · have hdef : handleTerminalCommand tU env tid tname cmd o s =
        logObservationAndAction tU o
          (.terminal_command .user tid tname cmd)
          { s with lastUserInteractionTime := tU,
                   lastUserEditedFile := none } := by
      unfold handleTerminalCommand
      simp [hrec, hexp]
    have hf := logObservationAndAction_preserves tU o
      (.terminal_command .user tid tname cmd)
      { s with lastUserInteractionTime := tU, lastUserEditedFile := none }
    rw [hdef]
    have h1 : (logObservationAndAction tU o
        (.terminal_command .user tid tname cmd)
        { s with lastUserInteractionTime := tU,
                 lastUserEditedFile := none }).recording.isRecording = true := by
      rw [hf.1]; exact hrec
    have h2 : (logObservationAndAction tU o
        (.terminal_command .user tid tname cmd)
        { s with lastUserInteractionTime := tU,
                 lastUserEditedFile := none }).lastUserInteractionTime = tU := by
      rw [hf.2.1]
    have h3 : (logObservationAndAction tU o
        (.terminal_command .user tid tname cmd)
        { s with lastUserInteractionTime := tU,
                 lastUserEditedFile := none }).lastUserEditedFile = none := by
      rw [hf.2.2]
    unfold handleFileChange
    rw [h1, h2, h3]
    simp [hwin]

/-- C9 witness: a change to the edited file one second after the edit is
dropped entirely. -/
theorem C9_witness :
    handleFileChange 1000 "a.txt" ChangeKind.change (some "d") ⟨none, []⟩
        (handleTextDocumentChange 0 ⟨false, true⟩ "a.txt" [⟨0, 0, "hi"⟩]
          ⟨none, []⟩ sampleStart) =
      handleTextDocumentChange 0 ⟨false, true⟩ "a.txt" [⟨0, 0, "hi"⟩]
        ⟨none, []⟩ sampleStart :=
  (C9_user_window_drops_changes sampleStart ⟨false, true⟩ ⟨none, []⟩ ⟨none, []⟩
    0 1000 "a.txt" [⟨0, 0, "hi"⟩] "t1" "bash" "ls" "g.txt" ChangeKind.change
    (some "d") rfl rfl rfl (by decide)).1

theorem range'_take_min : ∀ (a n k : ℕ),
    (List.range' a n).take k = List.range' a (min k n) := by
  intro a n
  induction n generalizing a with
  | zero => intro k; simp
  | succ n ih =>
    intro k
    cases k with
    | zero => simp
    | succ k =>
      rw [List.range'_succ, List.take_succ_cons, ih (a + 1) k,
        Nat.succ_min_succ, List.range'_succ]

theorem filter_lt_ts_eq_take (cut : Int) :
    ∀ (l : List RecordingEvent),
      l.Pairwise (fun a b => a.timestamp ≤ b.timestamp) →
      ∃ k, l.filter (fun e => e.timestamp < cut) = l.take k := by
  intro l
  induction l with
  | nil => exact fun _ => ⟨0, rfl⟩
  | cons e tl ih =>
    intro hp
    rw [List.pairwise_cons] at hp
    by_cases he : e.timestamp < cut
    · obtain ⟨k, hk⟩ := ih hp.2
      exact ⟨k + 1, by simp [List.filter_cons, he, hk]⟩
    · refine ⟨0, ?_⟩
      have hnil : tl.filter (fun e => e.timestamp < cut) = [] :=
        List.filter_eq_nil_iff.mpr (fun a ha => by
          have := hp.1 a ha
          simp
          omega)
      simp [List.filter_cons, he, hnil]

theorem last_seq_of_contiguous (ev : List RecordingEvent)
    (h : ev.map RecordingEvent.sequence = List.range' 1 ev.length) :
    (ev.getLast?.map RecordingEvent.sequence).getD 0 = ev.length := by
  cases ev with
  | nil => simp
  | cons e0 tl =>
    have h2 : ((e0 :: tl).map RecordingEvent.sequence).getLast? =
        some (1 + tl.length) := by
      rw [h]
      show (List.range' 1 (tl.length + 1)).getLast? = some (1 + tl.length)
      rw [List.range'_1_concat, List.getLast?_concat]
    rw [List.getLast?_map] at h2
    cases hl : (e0 :: tl).getLast? with
    | none => rw [hl] at h2; simp at h2
    | some e =>
      rw [hl] at h2
      simp only [Option.map_some', Option.some.injEq] at h2
      simp only [Option.map_some', Option.getD_some, List.length_cons]
      omega

theorem engineInv_relax (t t2 : Int) (s : EngineState) (h : EngineInv t s)
    (hle : t ≤ t2) : EngineInv t2 s := by
  obtain ⟨h1, h2, hpw, hb⟩ := h
  exact ⟨h1, h2, hpw, fun e he => le_trans (hb e he) hle⟩

theorem engineInv_append (t now : Int) (e : RecordingEvent) (s s2 : EngineState)
    (h : EngineInv t s) (hle : t ≤ now)
    (hev : s2.recording.events = s.recording.events ++ [e])
    (hseq2 : s2.recording.sequence = s.recording.sequence + 1)
    (heseq : e.sequence = s.recording.sequence + 1)
    (hets : e.timestamp = now) :
    EngineInv now s2 := by
  obtain ⟨h1, h2, hpw, hb⟩ := h
  unfold EngineInv EventsContiguous TimestampsLe at *
  refine ⟨?_, ?_, ?_, ?_⟩
  · rw [hev]
    simp only [List.map_append, List.map_cons, List.map_nil,
      List.length_append, List.length_cons, List.length_nil]
    rw [h1, heseq, h2, Nat.zero_add, List.range'_1_concat]
    rw [Nat.add_comm 1 s.recording.events.length]
  · rw [hseq2, hev, h2]
    simp
  · rw [hev]
    apply List.pairwise_append.mpr
    refine ⟨hpw, List.pairwise_singleton _ _, ?_⟩
    intro a ha b hbm
    simp only [List.mem_singleton] at hbm
    subst hbm
    rw [hets]
    exact le_trans (hb a ha) hle
  · rw [hev]
    intro x hx
    rcases List.mem_append.mp hx with hx | hx
    · exact le_trans (hb x hx) hle
    · simp only [List.mem_singleton] at hx
      subst hx
      rw [hets]

theorem engineInv_logObservation (t now : Int) (o : Observation)
    (s : EngineState) (h : EngineInv t s) (hle : t ≤ now) :
    EngineInv now (logObservation now o s) := by
  unfold logObservation
  by_cases hr : s.recording.isRecording = false
  · simp only [if_pos hr]
    exact engineInv_relax t now s h hle
  · simp only [if_neg hr]
    exact engineInv_append t now (.observation (s.recording.sequence + 1) now o)
      s _ h hle rfl rfl rfl rfl

theorem engineInv_logAction (t now : Int) (a : Action)
    (s : EngineState) (h : EngineInv t s) (hle : t ≤ now) :
    EngineInv now (logAction now a s) := by
  unfold logAction
  by_cases hr : s.recording.isRecording = false
  · simp only [if_pos hr]
    exact engineInv_relax t now s h hle
  · simp only [if_neg hr]
    exact engineInv_append t now (.action (s.recording.sequence + 1) now a)
      s _ h hle rfl rfl rfl rfl

theorem panicButton_eq (now : Int) (s : EngineState)
    (hrec : s.recording.isRecording = true)
    (hstart : s.recording.startDateTime ≠ none) :
    panicButton now s = { s with
      recording := { s.recording with
        events := s.recording.events.filter
          (fun e => e.timestamp <
            now - ((panicEffectiveCount now s + 1) * 10 * 1000 : ℕ)),
        sequence :=
          match (s.recording.events.filter
            (fun e => e.timestamp <
              now - ((panicEffectiveCount now s + 1) * 10 * 1000 : ℕ))).getLast? with
          | some e => e.sequence
          | none => 0 },
      panicButtonPressCount := panicEffectiveCount now s + 1,
      lastPanicPressTime := some now } := by
  unfold panicButton
  simp [hrec, hstart]

theorem engineInv_panicButton (t now : Int) (s : EngineState)
    (h : EngineInv t s) (hle : t ≤ now) :
    EngineInv now (panicButton now s) := by
  by_cases hr : s.recording.isRecording = false
  · unfold panicButton
    simp only [if_pos hr]
    exact engineInv_relax t now s h hle
  · by_cases hs : s.recording.startDateTime = none
    · unfold panicButton
      simp only [if_neg hr, if_pos hs]
      exact engineInv_relax t now s h hle
    · have hrec : s.recording.isRecording = true := by
        revert hr; cases s.recording.isRecording <;> simp
      rw [panicButton_eq now s hrec hs]
      obtain ⟨h1, h2, hpw, hb⟩ := h
      obtain ⟨k, hk⟩ := filter_lt_ts_eq_take
        (now - ((panicEffectiveCount now s + 1) * 10 * 1000 : ℕ))
        s.recording.events hpw
      have hcont : (s.recording.events.filter
          (fun e => e.timestamp <
            now - ((panicEffectiveCount now s + 1) * 10 * 1000 : ℕ))).map
          RecordingEvent.sequence =
          List.range' 1 (s.recording.events.filter
            (fun e => e.timestamp <
              now - ((panicEffectiveCount now s + 1) * 10 * 1000 : ℕ))).length := by
        rw [hk, List.map_take, h1, range'_take_min, List.length_take]
      unfold EngineInv EventsContiguous TimestampsLe
      refine ⟨hcont, ?_, ?_, ?_⟩
      · have hmatch : (match (s.recording.events.filter
            (fun e => e.timestamp <
              now - ((panicEffectiveCount now s + 1) * 10 * 1000 : ℕ))).getLast? with
            | some e => e.sequence
            | none => 0) =
            ((s.recording.events.filter
              (fun e => e.timestamp <
                now - ((panicEffectiveCount now s + 1) * 10 * 1000 : ℕ))).getLast?.map
                RecordingEvent.sequence).getD 0 := by
          cases (s.recording.events.filter
            (fun e => e.timestamp <
              now - ((panicEffectiveCount now s + 1) * 10 * 1000 : ℕ))).getLast? <;> rfl
        rw [hmatch]
        exact last_seq_of_contiguous _ hcont
      · exact List.Pairwise.sublist (List.filter_sublist _) hpw
      · intro x hx
        exact le_trans (hb x (List.mem_of_mem_filter hx)) hle

theorem engineInv_startState (t0 : Int) (sid : String) (g : GitState) :
    EngineInv t0 (startState t0 sid g) := by
  unfold EngineInv EventsContiguous TimestampsLe startState
  refine ⟨rfl, rfl, ?_, ?_⟩ <;> simp

theorem engineInv_runEngine :
    ∀ (tr : List (Int × EngineOp)) (t : Int) (s : EngineState),
      EngineInv t s → TimesMono t tr →
      ∃ t2, EngineInv t2 (runEngine s tr) := by
  intro tr
  induction tr with
  | nil => exact fun t s h _ => ⟨t, h⟩
  | cons p tl ih =>
    intro t s h hm
    simp only [TimesMono] at hm
    have hstep : EngineInv p.1 (engineStep s p) := by
      unfold engineStep
      cases p.2 with
      | obs o => exact engineInv_logObservation t p.1 o s h hm.1
      | act a => exact engineInv_logAction t p.1 a s h hm.1
      | panic => exact engineInv_panicButton t p.1 s h hm.1
    exact ih p.1 (engineStep s p) hstep hm.2

/-- C1: along any monotonically timed sequence of `logObservation`,
`logAction` and `panicButton` calls from a freshly started session, the
event log carries exactly the sequence numbers 1, …, n in order (hence
unique, strictly increasing and contiguous across all event kinds), the
session counter equals the log length, and after any further `panicButton`
invocation the counter equals the last remaining event's sequence number
(or 0 when no events remain). -/
theorem C1_sequence_contiguous (t0 : Int) (sid : String) (g : GitState)
    (tr : List (Int × EngineOp)) (hmono : TimesMono t0 tr) :
    ((runEngine (startState t0 sid g) tr).recording.events.map
        RecordingEvent.sequence =
      List.range' 1
        (runEngine (startState t0 sid g) tr).recording.events.length) ∧
    ((runEngine (startState t0 sid g) tr).recording.events.map
        RecordingEvent.sequence).Pairwise (· < ·) ∧
    ((runEngine (startState t0 sid g) tr).recording.sequence =
      (runEngine (startState t0 sid g) tr).recording.events.length) ∧
    ∀ now : Int,
      (panicButton now (runEngine (startState t0 sid g) tr)).recording.sequence =
        ((panicButton now
            (runEngine (startState t0 sid g) tr)).recording.events.getLast?.map
          RecordingEvent.sequence).getD 0 := by
  obtain ⟨t2, hinv⟩ := engineInv_runEngine tr t0 (startState t0 sid g)
    (engineInv_startState t0 sid g) hmono
  obtain ⟨h1, h2, hpw, hb⟩ := hinv
  refine ⟨h1, ?_, h2, ?_⟩
  · rw [h1]
    exact List.pairwise_lt_range' 1 _
  · intro now
    by_cases hr : (runEngine (startState t0 sid g) tr).recording.isRecording = false
    · unfold panicButton
      simp only [if_pos hr]
      rw [h2, last_seq_of_contiguous _ h1]
    · by_cases hs : (runEngine (startState t0 sid g) tr).recording.startDateTime = none
      · unfold panicButton
        simp only [if_neg hr, if_pos hs]
        rw [h2, last_seq_of_contiguous _ h1]
      · have hrec : (runEngine (startState t0 sid g) tr).recording.isRecording = true := by
          revert hr
          cases (runEngine (startState t0 sid g) tr).recording.isRecording <;> simp
        rw [panicButton_eq now _ hrec hs]
        cases ((runEngine (startState t0 sid g) tr).recording.events.filter
          (fun e => e.timestamp <
            now - ((panicEffectiveCount now (runEngine (startState t0 sid g) tr) + 1)
              * 10 * 1000 : ℕ))).getLast? <;> rfl

/-- C1 witness: a concrete monotone trace of two logs and a panic press
leaves the counter equal to the log length. -/
theorem C1_witness :
    (runEngine (startState 0 "session" ⟨false, -100000⟩)
        [(1, .obs ⟨none, []⟩), (2, .act (.scroll .user "f.txt")),
          (100000, .panic)]).recording.sequence =
      (runEngine (startState 0 "session" ⟨false, -100000⟩)
        [(1, .obs ⟨none, []⟩), (2, .act (.scroll .user "f.txt")),
          (100000, .panic)]).recording.events.length :=
  (C1_sequence_contiguous 0 "session" ⟨false, -100000⟩
    [(1, .obs ⟨none, []⟩), (2, .act (.scroll .user "f.txt")),
      (100000, .panic)]
    (by refine ⟨by norm_num, by norm_num, by norm_num, trivial⟩)).2.2.1

end CrowdCode
